import Mathlib

/-!
Verification development for the beam_slam SLAM back-end.

This file gives a shallow embedding, in Lean 4, of the parts of the
repository that the properties below are about:

* `ImuPreintegration` (src/bs_models/src/lib/imu_preintegration.cpp):
  the IMU sample buffers, the keyframe anchor state `imu_state_i_`, the
  intermediate state `imu_state_k_`, `AddToBuffer`, `SetStart`,
  `PredictState`, `GetPose` and `RegisterNewImuPreintegratedFactor`.
* `GlobalMap` (global_map.cpp): `GetSubmapId`, the submap-creation step of
  `AddMeasurement`, the candidate filtering of `RunLoopClosure`, and the
  active-submap logic of `ProcessRelocRequest`.
* `VisualInertialOdom::IsKeyframe` / `ComputeAvgParallax`
  (src/beam_models/src/camera_to_camera/visual_inertial_odom.cpp).
* `Pose3DStampedTransaction::GetTransaction` and
  `RelativePoseTransactionBase::GetTransaction` (src/bs_constraints).

Real-valued quantities are embedded as rationals (`ℚ`); C++ `double`
arithmetic is modelled exactly, which is faithful for the control flow
the theorems are about.  `std::queue`s are `List`s (front = head); a read
of `front()` on an empty queue (undefined behaviour in C++) is modelled by
an `Except.error`.  Rotations are embedded as explicit 3x3 rational
matrices acting on 3-vectors; the SO(3) exponential map used inside the
(out-of-repo) `bs_common::PreIntegrator::Integrate` is passed in as an
explicit function argument.
-/

namespace BeamSlam

/-- A 3-vector with rational components, standing for `Eigen::Vector3d`. -/
structure Vec3 where
  x : ℚ
  y : ℚ
  z : ℚ
deriving DecidableEq, Repr

namespace Vec3

def add (a b : Vec3) : Vec3 := ⟨a.x + b.x, a.y + b.y, a.z + b.z⟩

def sub (a b : Vec3) : Vec3 := ⟨a.x - b.x, a.y - b.y, a.z - b.z⟩

def smul (c : ℚ) (a : Vec3) : Vec3 := ⟨c * a.x, c * a.y, c * a.z⟩

def zero : Vec3 := ⟨0, 0, 0⟩

instance : Inhabited Vec3 := ⟨zero⟩

/-- Squared Euclidean norm.  The source compares `(a - b).norm() <
submap_size`; we compare squared norms against the squared threshold,
which is equivalent for a nonnegative threshold. -/
def normSq (a : Vec3) : ℚ := a.x * a.x + a.y * a.y + a.z * a.z

theorem add_zero (a : Vec3) : add a zero = a := by
  simp [add, zero]

theorem smul_zero_left (a : Vec3) : smul 0 a = zero := by
  simp [smul, zero]

theorem normSq_nonneg (a : Vec3) : 0 ≤ normSq a := by
  have hx := mul_self_nonneg a.x
  have hy := mul_self_nonneg a.y
  have hz := mul_self_nonneg a.z
  unfold normSq
  linarith

theorem normSq_sub_self (a : Vec3) : normSq (sub a a) = 0 := by
  simp [normSq, sub]

end Vec3

/-- A rotation, embedded as an explicit 3x3 rational matrix (row major),
standing for the rotation part of the `Eigen` quaternions/matrices used in
the source.  Only the multiplicative structure and the action on vectors
matter for the claims. -/
structure Rot where
  a11 : ℚ
  a12 : ℚ
  a13 : ℚ
  a21 : ℚ
  a22 : ℚ
  a23 : ℚ
  a31 : ℚ
  a32 : ℚ
  a33 : ℚ
deriving DecidableEq, Repr

namespace Rot

def one : Rot := ⟨1, 0, 0, 0, 1, 0, 0, 0, 1⟩

instance : Inhabited Rot := ⟨one⟩

def mul (r s : Rot) : Rot :=
  ⟨r.a11 * s.a11 + r.a12 * s.a21 + r.a13 * s.a31,
   r.a11 * s.a12 + r.a12 * s.a22 + r.a13 * s.a32,
   r.a11 * s.a13 + r.a12 * s.a23 + r.a13 * s.a33,
   r.a21 * s.a11 + r.a22 * s.a21 + r.a23 * s.a31,
   r.a21 * s.a12 + r.a22 * s.a22 + r.a23 * s.a32,
   r.a21 * s.a13 + r.a22 * s.a23 + r.a23 * s.a33,
   r.a31 * s.a11 + r.a32 * s.a21 + r.a33 * s.a31,
   r.a31 * s.a12 + r.a32 * s.a22 + r.a33 * s.a32,
   r.a31 * s.a13 + r.a32 * s.a23 + r.a33 * s.a33⟩

/-- Action of a rotation on a vector (`q * v` in the source). -/
def act (r : Rot) (v : Vec3) : Vec3 :=
  ⟨r.a11 * v.x + r.a12 * v.y + r.a13 * v.z,
   r.a21 * v.x + r.a22 * v.y + r.a23 * v.z,
   r.a31 * v.x + r.a32 * v.y + r.a33 * v.z⟩

theorem mul_one (r : Rot) : mul r one = r := by
  simp [mul, one]

theorem act_zero (r : Rot) : act r Vec3.zero = Vec3.zero := by
  simp [act, Vec3.zero]

end Rot

/-- One IMU sample, standing for `bs_common::IMUData`: a stamp `t`
(seconds as a rational), angular velocity `w` and linear acceleration
`a`. -/
structure IMUData where
  t : ℚ
  w : Vec3
  a : Vec3
deriving DecidableEq, Repr

instance : Inhabited IMUData := ⟨⟨0, Vec3.zero, Vec3.zero⟩⟩

/-- The preintegrated delta of `bs_common::PreIntegrator` (`delta.t`,
`delta.q`, `delta.v`, `delta.p`); the accumulated covariance and bias
Jacobians are not read by any of the verified operations and are
omitted. -/
structure Delta where
  t : ℚ
  q : Rot
  v : Vec3
  p : Vec3
deriving DecidableEq, Repr

def Delta.zero : Delta := ⟨0, Rot.one, Vec3.zero, Vec3.zero⟩

/-- `bs_common::ImuState`: stamp, orientation, position, velocity and the
two biases. -/
structure ImuState where
  stamp : ℚ
  q : Rot
  p : Vec3
  v : Vec3
  bg : Vec3
  ba : Vec3
deriving DecidableEq, Repr

instance : Inhabited ImuState :=
  ⟨⟨0, Rot.one, Vec3.zero, Vec3.zero, Vec3.zero, Vec3.zero⟩⟩

/-- `GRAVITY_WORLD` of bs_common, the gravity vector added at predict
time in the world frame: (0, 0, -9.81). -/
def GRAVITY_WORLD : Vec3 := ⟨0, 0, -(981 / 100)⟩

/-- One Euler step of the preintegration fold: advance the delta by a
sample with body rates `w`, `a` over a time step `dt`, under biases `bg`,
`ba`.  `so3exp` is the SO(3) retraction `v ↦ exp(v)`. -/
def integrateStep (so3exp : Vec3 → Rot) (bg ba : Vec3) (d : Delta)
    (w a : Vec3) (dt : ℚ) : Delta :=
  { t := d.t + dt
    q := d.q.mul (so3exp (Vec3.smul dt (Vec3.sub w bg)))
    v := (d.v.add (Vec3.smul dt (d.q.act (Vec3.sub a ba))))
    p := d.p.add (Vec3.smul dt d.v) }

/-- Modelled from the spec: `bs_common::PreIntegrator::Integrate` is not
under src/ (only its caller `ImuPreintegration` is).  Per spec section
4.1 the delta is "exactly the integral of samples over (i, j]" computed
"via the first-order retraction q(k+1) = q(k) * exp((w(k) - bg) dt(k))",
propagating velocity and position "by standard midpoint or Euler rule
under zero gravity".  We embed the Euler rule: each sample is applied
over the interval from its stamp to the next sample's stamp, and the
last sample over the interval to `tEnd`.  An empty sample list yields the
zero delta.  The transcendental SO(3) exponential is taken as an explicit
argument `so3exp`. -/
def Integrate (so3exp : Vec3 → Rot) (data : List IMUData) (tEnd : ℚ)
    (bg ba : Vec3) : Delta :=
  go data Delta.zero
where
  go : List IMUData → Delta → Delta
    | [], d => d
    | [s], d => integrateStep so3exp bg ba d s.w s.a (tEnd - s.t)
    | s :: s2 :: rest, d =>
        go (s2 :: rest) (integrateStep so3exp bg ba d s.w s.a (s2.t - s.t))

theorem Integrate_nil (so3exp : Vec3 → Rot) (tEnd : ℚ) (bg ba : Vec3) :
    Integrate so3exp [] tEnd bg ba = Delta.zero := rfl

/-- `ImuPreintegration::PredictState` (imu_preintegration.cpp, lines
96-123): from the accumulated delta and the current state, predict the
new state; overwrite the stamp with `tNow` when `tNow` is not time 0. -/
def PredictState (pre : Delta) (cur : ImuState) (tNow : ℚ) : ImuState :=
  let dt := pre.t
  let qCurr := cur.q
  let qNew := qCurr.mul pre.q
  let vNew := (cur.v.add (Vec3.smul dt GRAVITY_WORLD)).add (qCurr.act pre.v)
  let pNew := ((cur.p.add (Vec3.smul dt cur.v)).add
      (Vec3.smul (dt * dt / 2) GRAVITY_WORLD)).add (qCurr.act pre.p)
  let tNew := if tNow ≠ 0 then tNow else cur.stamp + pre.t
  { stamp := tNew, q := qNew, p := pNew, v := vNew, bg := cur.bg, ba := cur.ba }

/-- `PredictState` with a zero delta at a nonzero time returns the input
state with the stamp replaced: the pose is unchanged. -/
theorem PredictState_zero (cur : ImuState) (tNow : ℚ) (h : tNow ≠ 0) :
    PredictState Delta.zero cur tNow =
      { cur with stamp := tNow } := by
  simp [PredictState, Delta.zero, Rot.mul_one, Rot.act_zero, h,
    Vec3.add_zero, Vec3.smul_zero_left]

/-- The C++ pop loops of the form `while (t > buffer.front().t)
buffer.pop();` (SetStart lines 64-70, GetPose lines 136-140,
RegisterNewImuPreintegratedFactor lines 187-191 and 221-223).  Each loop
iteration reads `front()` BEFORE any emptiness test (the `&& !empty()` at
line 188 is evaluated after `front()` and, when reached, the queue is
necessarily nonempty, so it never guards anything).  Reading the front of
an empty `std::queue` is undefined behaviour; it is modelled by
`Except.error ()`.  On success the result is the pair (popped samples in
order, remaining buffer). -/
def drainLT (t : ℚ) : List IMUData → Except Unit (List IMUData × List IMUData)
  | [] => .error ()
  | d :: rest =>
      if d.t < t then
        match drainLT t rest with
        | .error () => .error ()
        | .ok (popped, remaining) => .ok (d :: popped, remaining)
      else
        .ok ([], d :: rest)

theorem drainLT_head_ge (t : ℚ) (l popped : List IMUData) (d : IMUData)
    (rest : List IMUData) (h : drainLT t l = .ok (popped, d :: rest)) :
    ¬ d.t < t := by
  induction l generalizing popped with
  | nil => simp [drainLT] at h
  | cons x xs ih =>
      simp only [drainLT] at h
      by_cases hx : x.t < t
      · simp only [hx, if_true] at h
        cases hdr : drainLT t xs with
        | error e => rw [hdr] at h; cases h
        | ok pr =>
            rw [hdr] at h
            obtain ⟨p, r⟩ := pr
            cases h
            exact ih p hdr
      · simp only [hx, if_false] at h
        cases h
        exact hx

theorem drainLT_stop (t : ℚ) (d : IMUData) (rest : List IMUData)
    (h : ¬ d.t < t) : drainLT t (d :: rest) = .ok ([], d :: rest) := by
  simp [drainLT, h]

/-- An IMU-state transaction item, standing for the constraints and
variables that `ImuState3DStampedTransaction` (whose implementation is
not under src/) collects: the prior on the first state, the relative
constraint between states i and j, and the state variables.  The relative
constraint also records the preintegrated sample set it was built from. -/
inductive ImuTxItem where
  | priorImuState (st : ImuState) (covDiag : ℚ) (source : String)
  | relativeImuState (i j : ImuState) (data : List IMUData)
  | imuStateVariables (st : ImuState)
deriving DecidableEq, Repr

/-- `RelativePoseTransactionBase::GetTransaction`
(relative_pose_transaction_base.h lines 45-48) applied to the item list
of an IMU transaction: `nullptr` (`none`) when the transaction is empty,
the transaction itself otherwise. -/
def imuGetTransaction (items : List ImuTxItem) : Option (List ImuTxItem) :=
  if items.isEmpty then none else some items

/-- The state of an `ImuPreintegration` object (imu_preintegration.cpp):
the two sample queues, the anchor keyframe state `imu_state_i_`, the
inter-keyframe state `imu_state_k_`, the sample list accumulated in
`pre_integrator_ij`, the `first_window_` flag, and the stored initial
biases `bg_` / `ba_`. -/
structure ImuPreintegration where
  currentBuf : List IMUData
  totalBuf : List IMUData
  state_i : ImuState
  state_k : ImuState
  preintData : List IMUData
  firstWindow : Bool
  bg : Vec3
  ba : Vec3
deriving DecidableEq, Repr

instance : Inhabited ImuPreintegration :=
  ⟨⟨[], [], default, default, [], true, Vec3.zero, Vec3.zero⟩⟩

namespace ImuPreintegration

/-- `ImuPreintegration::AddToBuffer` (lines 28-37): push the sample onto
both the current and the total buffer.  No stamp check of any kind is
performed. -/
def AddToBuffer (s : ImuPreintegration) (d : IMUData) : ImuPreintegration :=
  { s with
    currentBuf := s.currentBuf ++ [d]
    totalBuf := s.totalBuf ++ [d] }

/-- `ImuPreintegration::SetStart` (lines 58-94): pop both buffers up to
`tStart` (reading `front()` with no emptiness guard), then rebuild the
anchor state from the optional orientation / position / velocity
arguments and the stored biases, and copy it to `imu_state_k_`. -/
def SetStart (s : ImuPreintegration) (tStart : ℚ) (qOpt : Option Rot)
    (pOpt : Option Vec3) (vOpt : Option Vec3) :
    Except Unit ImuPreintegration := do
  let (_, cur) ← drainLT tStart s.currentBuf
  let (_, tot) ← drainLT tStart s.totalBuf
  let st : ImuState :=
    { stamp := tStart
      q := qOpt.getD Rot.one
      p := pOpt.getD Vec3.zero
      v := vOpt.getD Vec3.zero
      bg := s.bg
      ba := s.ba }
  return { s with currentBuf := cur, totalBuf := tot,
                  state_i := st, state_k := st }

/-- `ImuPreintegration::GetPose` (lines 125-155).  Returns
`.ok (none, s)` when the requested time precedes the buffer front (the
C++ `return false`, leaving the object untouched), and otherwise pops the
samples before `tNow` into a fresh interval integrator (also appending
them to `pre_integrator_ij`), integrates, advances `imu_state_k_`, and
returns the new pose.  Reading `front()` of an empty buffer is
`.error ()`. -/
def GetPose (so3exp : Vec3 → Rot) (s : ImuPreintegration) (tNow : ℚ) :
    Except Unit (Option (Rot × Vec3) × ImuPreintegration) :=
  match s.currentBuf with
  | [] => .error ()
  | d :: rest =>
      if tNow < d.t then .ok (none, s)
      else
        match drainLT tNow (d :: rest) with
        | .error () => .error ()
        | .ok (popped, remaining) =>
            let delta := Integrate so3exp popped tNow s.state_i.bg s.state_i.ba
            let kNew := PredictState delta s.state_k tNow
            .ok (some (kNew.q, kNew.p),
                 { s with currentBuf := remaining
                          preintData := s.preintData ++ popped
                          state_k := kNew })

/-- Lines 207-215 of `RegisterNewImuPreintegratedFactor`: when BOTH an
orientation and a position override are supplied, overwrite the predicted
state j's orientation and position with them and recompute the velocity
from the chord `(p_j - p_i) / (t_now - t_i)`; otherwise keep the
predicted state j unchanged.  (`i` is the old anchor `imu_state_i_`.) -/
def applyOverride (i j : ImuState) (tNow : ℚ) :
    Option Rot → Option Vec3 → ImuState
  | some qOv, some pOv =>
      { j with q := qOv, p := pOv,
               v := Vec3.smul (1 / (tNow - i.stamp)) (Vec3.sub pOv i.p) }
  | _, _ => j

/-- `ImuPreintegration::RegisterNewImuPreintegratedFactor` (lines
157-231).  Returns `.ok (none, s)` when `tNow` precedes the buffer front
(the C++ `return nullptr`, before any member is mutated).  Otherwise:
optionally emits the first-window prior, pops the samples before `tNow`
into `pre_integrator_ij`, integrates over the accumulated samples,
predicts state j from the anchor, adds the relative constraint and the
state-j variables (with the PREDICTED state j, before any override),
applies the optional orientation/position override (recomputing the
velocity from the chord), rolls the anchor forward to the (possibly
overridden) state j, pops the total buffer up to the new anchor stamp,
copies the anchor to `imu_state_k_`, and resets the preintegrator. -/
def RegisterNewImuPreintegratedFactor (so3exp : Vec3 → Rot)
    (s : ImuPreintegration) (tNow : ℚ) (qOpt : Option Rot)
    (pOpt : Option Vec3) :
    Except Unit (Option (List ImuTxItem) × ImuPreintegration) :=
  match s.currentBuf with
  | [] => .error ()
  | d :: rest =>
      if tNow < d.t then .ok (none, s)
      else
        let priorItems : List ImuTxItem :=
          if s.firstWindow then
            [.priorImuState s.state_i covPriorNoise "FIRST_IMU_STATE_PRIOR",
             .imuStateVariables s.state_i]
          else []
        match drainLT tNow (d :: rest) with
        | .error () => .error ()
        | .ok (popped, remaining) =>
            let data := s.preintData ++ popped
            let delta := Integrate so3exp data tNow s.state_i.bg s.state_i.ba
            let j := PredictState delta s.state_i tNow
            let items := priorItems ++
              [.relativeImuState s.state_i j data, .imuStateVariables j]
            let jFinal : ImuState := applyOverride s.state_i j tNow qOpt pOpt
            match drainLT jFinal.stamp s.totalBuf with
            | .error () => .error ()
            | .ok (_, totalRemaining) =>
                .ok (imuGetTransaction items,
                     { s with currentBuf := remaining
                              totalBuf := totalRemaining
                              state_i := jFinal
                              state_k := jFinal
                              preintData := []
                              firstWindow := false })
where
  /-- `params_.cov_prior_noise`; its value is irrelevant to the claims. -/
  covPriorNoise : ℚ := 1 / 100

/-- Inversion of a successful `RegisterNewImuPreintegratedFactor` run:
if the call returned a non-null transaction then the current buffer was
drained at `tNow`, the new anchor `state_i` is the predicted (possibly
overridden) state j, the total buffer was drained at the new anchor
stamp, `state_k` is a copy of the new anchor, and the preintegrator was
reset. -/
theorem register_ok_inv (so3exp : Vec3 → Rot) (s : ImuPreintegration)
    (tNow : ℚ) (qOpt : Option Rot) (pOpt : Option Vec3)
    (items : List ImuTxItem) (s1 : ImuPreintegration)
    (h : RegisterNewImuPreintegratedFactor so3exp s tNow qOpt pOpt =
      .ok (some items, s1)) :
    ∃ popped totalPopped,
      drainLT tNow s.currentBuf = .ok (popped, s1.currentBuf) ∧
      s1.state_i = applyOverride s.state_i
        (PredictState
          (Integrate so3exp (s.preintData ++ popped) tNow
            s.state_i.bg s.state_i.ba) s.state_i tNow) tNow qOpt pOpt ∧
      drainLT s1.state_i.stamp s.totalBuf = .ok (totalPopped, s1.totalBuf) ∧
      s1.state_k = s1.state_i ∧ s1.preintData = [] ∧
      s1.firstWindow = false ∧ s1.bg = s.bg ∧ s1.ba = s.ba := by
  unfold RegisterNewImuPreintegratedFactor at h
  rcases hcb : s.currentBuf with _ | ⟨d, rest⟩ <;> rw [hcb] at h <;>
    dsimp only at h
  · cases h
  · by_cases hlt : tNow < d.t
    · rw [if_pos hlt] at h
      cases h
    · rw [if_neg hlt] at h
      rcases hdr : drainLT tNow (d :: rest) with _ | ⟨popped, remaining⟩ <;>
        rw [hdr] at h <;> dsimp only at h
      · cases h
      · rcases hdt : drainLT
            (applyOverride s.state_i
              (PredictState
                (Integrate so3exp (s.preintData ++ popped) tNow
                  s.state_i.bg s.state_i.ba) s.state_i tNow)
              tNow qOpt pOpt).stamp s.totalBuf with _ | ⟨tp, tr⟩ <;>
          rw [hdt] at h <;> dsimp only at h
        · cases h
        · simp only [Except.ok.injEq, Prod.mk.injEq] at h
          obtain ⟨-, hs1⟩ := h
          refine ⟨popped, tp, ?_, ?_, ?_, ?_, ?_, ?_, ?_, ?_⟩ <;>
            simp [← hs1, hdr, hdt]

end ImuPreintegration

/-- A trivial SO(3) retraction used to instantiate witnesses and
counterexamples on concrete inputs. -/
def idRetract : Vec3 → Rot := fun _ => Rot.one

/-- An IMU sample with zero rates at stamp `t`, for concrete runs. -/
def sampleAt (t : ℚ) : IMUData := ⟨t, Vec3.zero, Vec3.zero⟩

/-- A fresh preintegrator holding the given current/total buffers, default
(identity/zero) states and zero initial biases. -/
def mkPreint (buf : List IMUData) : ImuPreintegration :=
  ⟨buf, buf, default, default, [], true, Vec3.zero, Vec3.zero⟩

/-- C3: `AddToBuffer` performs no out-of-order rejection whatsoever: a
sample stamped 3 pushed after a sample stamped 5 is still appended to
both buffers, and the stored samples are then not strictly increasing. -/
theorem claim_C3_counterexample :
    (ImuPreintegration.AddToBuffer
      (ImuPreintegration.AddToBuffer (mkPreint []) (sampleAt 5))
      (sampleAt 3)).currentBuf = [sampleAt 5, sampleAt 3] ∧
    ¬ List.Chain' (fun a b : IMUData => a.t < b.t)
      [sampleAt 5, sampleAt 3] := by
  refine ⟨rfl, ?_⟩
  simp [List.chain'_cons, sampleAt]
  norm_num

/-- C3 (amended): `AddToBuffer` appends every pushed sample
unconditionally to both the current and the total buffer, in arrival
order; no sample is ever rejected, so the buffers are strictly
increasing in time only when the pushed sequence itself is. -/
theorem claim_C3 (s : ImuPreintegration) (ds : List IMUData) :
    (ds.foldl ImuPreintegration.AddToBuffer s).currentBuf =
      s.currentBuf ++ ds ∧
    (ds.foldl ImuPreintegration.AddToBuffer s).totalBuf =
      s.totalBuf ++ ds := by
  induction ds generalizing s with
  | nil => simp
  | cons d ds ih =>
      obtain ⟨h1, h2⟩ := ih (ImuPreintegration.AddToBuffer s d)
      constructor
      · rw [List.foldl_cons, h1]
        simp [ImuPreintegration.AddToBuffer]
      · rw [List.foldl_cons, h2]
        simp [ImuPreintegration.AddToBuffer]

/-- C7: when the requested time precedes the front of the current IMU
buffer, `GetPose` returns false and `RegisterNewImuPreintegratedFactor`
returns a null transaction, and in both cases the preintegrator state is
returned untouched, so the caller can retry. -/
theorem claim_C7 (so3exp : Vec3 → Rot) (s : ImuPreintegration)
    (tNow : ℚ) (d : IMUData) (rest : List IMUData) (qOpt : Option Rot)
    (pOpt : Option Vec3) (hbuf : s.currentBuf = d :: rest)
    (hlt : tNow < d.t) :
    ImuPreintegration.GetPose so3exp s tNow = .ok (none, s) ∧
    ImuPreintegration.RegisterNewImuPreintegratedFactor so3exp s tNow
      qOpt pOpt = .ok (none, s) := by
  constructor
  · unfold ImuPreintegration.GetPose
    rw [hbuf]
    dsimp only
    rw [if_pos hlt]
  · unfold ImuPreintegration.RegisterNewImuPreintegratedFactor
    rw [hbuf]
    dsimp only
    rw [if_pos hlt]

/-- C7 witness: on a buffer whose single sample is stamped 3, both
operations requested at time 1 return the failure value and the
unchanged state. -/
theorem claim_C7_witness :
    ImuPreintegration.GetPose idRetract (mkPreint [sampleAt 3]) 1 =
      .ok (none, mkPreint [sampleAt 3]) ∧
    ImuPreintegration.RegisterNewImuPreintegratedFactor idRetract
      (mkPreint [sampleAt 3]) 1 none none =
      .ok (none, mkPreint [sampleAt 3]) :=
  claim_C7 idRetract (mkPreint [sampleAt 3]) 1 (sampleAt 3) [] none none
    rfl (by norm_num [sampleAt])

/-- C10: the pop loops read `front()` of an empty queue for some inputs.
`SetStart` at time 2 on a buffer holding a single sample stamped 1 pops
that sample and then evaluates `t_start > current_imu_data_buffer_
.front().t` on the now-empty queue (undefined behaviour, modelled as
`.error ()`); `GetPose` at time 2 on the same buffer does the same in
its populate loop. -/
theorem claim_C10 :
    ImuPreintegration.SetStart (mkPreint [sampleAt 1]) 2 none none none =
      .error () ∧
    ImuPreintegration.GetPose idRetract (mkPreint [sampleAt 1]) 2 =
      .error () := by
  constructor <;> rfl

/-- C8: on a successful `RegisterNewImuPreintegratedFactor(t_j)` call in
which both an orientation and a position override were supplied, the new
anchor state i has exactly the supplied orientation and position, a
velocity recomputed from the chord `(p_j - p_i) / (t_j - t_i)`, and
stamp `t_j` (the anchor rolls forward, and `imu_state_k_` is a copy of
it); when either override is missing, the anchor instead becomes the
IMU-predicted state j. -/
theorem claim_C8 (so3exp : Vec3 → Rot) (s : ImuPreintegration)
    (tNow : ℚ) (qOpt : Option Rot) (pOpt : Option Vec3)
    (items : List ImuTxItem) (s1 : ImuPreintegration) (ht : tNow ≠ 0)
    (hreg : ImuPreintegration.RegisterNewImuPreintegratedFactor so3exp s
      tNow qOpt pOpt = .ok (some items, s1)) :
    (∀ qOv pOv, qOpt = some qOv → pOpt = some pOv →
      s1.state_i.q = qOv ∧ s1.state_i.p = pOv ∧
      s1.state_i.v =
        Vec3.smul (1 / (tNow - s.state_i.stamp))
          (Vec3.sub pOv s.state_i.p) ∧
      s1.state_i.stamp = tNow ∧ s1.state_k = s1.state_i) ∧
    ((qOpt = none ∨ pOpt = none) →
      ∃ popped,
        s1.state_i = PredictState
          (Integrate so3exp (s.preintData ++ popped) tNow
            s.state_i.bg s.state_i.ba) s.state_i tNow ∧
        s1.state_k = s1.state_i) := by
  obtain ⟨popped, tp, hdr, hsi, hdt, hsk, hpd, hfw, hbg, hba⟩ :=
    ImuPreintegration.register_ok_inv so3exp s tNow qOpt pOpt items s1 hreg
  constructor
  · rintro qOv pOv rfl rfl
    simp only [ImuPreintegration.applyOverride] at hsi
    refine ⟨by rw [hsi], by rw [hsi], by rw [hsi], ?_, hsk⟩
    rw [hsi]
    simp [PredictState, ht]
  · rintro (rfl | rfl)
    · refine ⟨popped, ?_, hsk⟩
      rw [hsi]
      cases pOpt <;> rfl
    · refine ⟨popped, ?_, hsk⟩
      rw [hsi]
      cases qOpt <;> rfl

/-- Concrete register call with both overrides supplied: single sample at
stamp 2, keyframe at t = 2, override orientation = identity, override
position = (1, 0, 0). -/
def c8POv : Vec3 := ⟨1, 0, 0⟩

def c8Res :=
  ImuPreintegration.RegisterNewImuPreintegratedFactor idRetract
    (mkPreint [sampleAt 2]) 2 (some Rot.one) (some c8POv)

def c8Items : List ImuTxItem :=
  match c8Res with
  | .ok (some its, _) => its
  | _ => []

def c8S1 : ImuPreintegration :=
  match c8Res with
  | .ok (_, s) => s
  | _ => default

/-- C8 witness: the concrete overridden register run commits an anchor
with the supplied orientation/position, the chord velocity and stamp 2. -/
theorem claim_C8_witness :
    c8S1.state_i.q = Rot.one ∧ c8S1.state_i.p = c8POv ∧
    c8S1.state_i.v =
      Vec3.smul (1 / (2 - (mkPreint [sampleAt 2]).state_i.stamp))
        (Vec3.sub c8POv (mkPreint [sampleAt 2]).state_i.p) ∧
    c8S1.state_i.stamp = 2 ∧ c8S1.state_k = c8S1.state_i :=
  (claim_C8 idRetract (mkPreint [sampleAt 2]) 2 (some Rot.one) (some c8POv)
    c8Items c8S1 (by norm_num) rfl).1 Rot.one c8POv rfl rfl

/-- Concrete run refuting C1: buffer holds samples stamped 1 and 3; the
factor is registered at keyframe time 2. -/
def c1Res :=
  ImuPreintegration.RegisterNewImuPreintegratedFactor idRetract
    (mkPreint [sampleAt 1, sampleAt 3]) 2 none none

def c1Items : List ImuTxItem :=
  match c1Res with
  | .ok (some its, _) => its
  | _ => []

def c1S1 : ImuPreintegration :=
  match c1Res with
  | .ok (_, s) => s
  | _ => default

/-- C1 counterexample: the factor at t_j = 2 is registered successfully
(non-null transaction), but the immediately following `GetPose(2)` FAILS
(returns false): registration popped the sample stamped 1, so the buffer
front is now stamped 3 and the `t_now < front().t` check rejects the
request.  The claim's "succeeds" clause is therefore false. -/
theorem claim_C1_counterexample :
    c1Res = .ok (some c1Items, c1S1) ∧
    ImuPreintegration.GetPose idRetract c1S1 2 = .ok (none, c1S1) := by
  constructor <;> rfl

/-- C1 (amended): if, in addition, the current buffer immediately after
the registration still holds a sample stamped at most t_j at its front
(equivalently, exactly t_j, since registration pops everything earlier),
then `GetPose(t_j)` succeeds and returns exactly the pose of the state
that was committed as the new anchor. -/
theorem claim_C1 (so3exp : Vec3 → Rot) (s : ImuPreintegration)
    (tNow : ℚ) (qOpt : Option Rot) (pOpt : Option Vec3)
    (items : List ImuTxItem) (s1 : ImuPreintegration) (d : IMUData)
    (rest : List IMUData) (ht : tNow ≠ 0)
    (hreg : ImuPreintegration.RegisterNewImuPreintegratedFactor so3exp s
      tNow qOpt pOpt = .ok (some items, s1))
    (hbuf : s1.currentBuf = d :: rest) (hle : d.t ≤ tNow) :
    ∃ s2, ImuPreintegration.GetPose so3exp s1 tNow =
      .ok (some (s1.state_i.q, s1.state_i.p), s2) := by
  obtain ⟨popped, tp, hdr, hsi, hdt, hsk, hpd, hfw, hbg, hba⟩ :=
    ImuPreintegration.register_ok_inv so3exp s tNow qOpt pOpt items s1 hreg
  rw [hbuf] at hdr
  have hge : ¬ d.t < tNow :=
    drainLT_head_ge tNow s.currentBuf popped d rest hdr
  have hcalc : ImuPreintegration.GetPose so3exp s1 tNow =
      .ok (some (s1.state_i.q, s1.state_i.p),
        { s1 with currentBuf := d :: rest,
                  preintData := s1.preintData ++ [],
                  state_k := { s1.state_i with stamp := tNow } }) := by
    unfold ImuPreintegration.GetPose
    rw [hbuf]
    dsimp only
    rw [if_neg (not_lt.mpr hle), drainLT_stop tNow d rest hge]
    dsimp only
    rw [Integrate_nil, PredictState_zero _ _ ht, hsk]
  exact ⟨_, hcalc⟩

/-- C1 witness (for the amended claim): buffer with a single sample at
stamp 2, register at t_j = 2; the sample stamped exactly 2 stays at the
front, and `GetPose(2)` then returns the committed anchor pose. -/
def c1wRes :=
  ImuPreintegration.RegisterNewImuPreintegratedFactor idRetract
    (mkPreint [sampleAt 2]) 2 none none

def c1wItems : List ImuTxItem :=
  match c1wRes with
  | .ok (some its, _) => its
  | _ => []

def c1wS1 : ImuPreintegration :=
  match c1wRes with
  | .ok (_, s) => s
  | _ => default

theorem claim_C1_witness :
    ∃ s2, ImuPreintegration.GetPose idRetract c1wS1 2 =
      .ok (some (c1wS1.state_i.q, c1wS1.state_i.p), s2) :=
  claim_C1 idRetract (mkPreint [sampleAt 2]) 2 none none c1wItems c1wS1
    (sampleAt 2) [] (by norm_num) rfl rfl (by norm_num [sampleAt])

/-! ## Visual front-end keyframe decision
(src/beam_models/src/camera_to_camera/visual_inertial_odom.cpp) -/

/-- One record of the feature tracker: landmark `id` was observed at time
`t` at pixel `px`.  `beam_cv::Tracker::Get(t, id)` returns the pixel or
throws `std::out_of_range`; it is embedded as a lookup in this list. -/
structure TrackEntry where
  t : ℚ
  id : ℕ
  px : ℚ × ℚ
deriving DecidableEq, Repr

/-- `tracker_->Get(t, id)`: the pixel of landmark `id` at time `t`, or
`none` (the `std::out_of_range` case). -/
def trackerGet (tracker : List TrackEntry) (t : ℚ) (id : ℕ) :
    Option (ℚ × ℚ) :=
  (tracker.find? (fun e => e.t = t && e.id = id)).map (fun e => e.px)

/-- The members of `VisualInertialOdom`'s camera parameter set read by
`IsKeyframe` (beam_parameters): the minimum keyframe spacing in seconds,
the parallax threshold, the track-drop threshold and the window size. -/
structure CameraParams where
  keyframe_min_time_in_seconds : ℚ
  keyframe_parallax : ℚ
  keyframe_tracks_drop : ℤ
  window_size : ℤ
deriving DecidableEq, Repr

namespace VisualInertialOdom

/-- `VisualInertialOdom::ComputeAvgParallax` (lines 271-286): over the
given landmark ids, take every id whose pixel is found by the tracker at
BOTH times, sum the pixel distances, and divide by the number of matches.
`dist` stands for `beam::distance` (libbeam, external to this
repository): the Euclidean pixel distance.  As in the C++ (which divides
by zero producing NaN), the quotient for zero matches is the junk value
of rational division by zero. -/
def ComputeAvgParallax (dist : ℚ × ℚ → ℚ × ℚ → ℚ)
    (tracker : List TrackEntry) (t1 t2 : ℚ) (t2Landmarks : List ℕ) : ℚ :=
  let ds := t2Landmarks.filterMap (fun id =>
    match trackerGet tracker t1 id, trackerGet tracker t2 id with
    | some p1, some p2 => some (dist p1 p2)
    | _, _ => none)
  ds.sum / (ds.length : ℚ)

/-- `VisualInertialOdom::IsKeyframe` (lines 246-269): a frame is a
keyframe iff enough time elapsed since the last keyframe AND (the mean
parallax over triangulated-union-untriangulated ids exceeds the parallax
threshold, OR the triangulated count falls below the track-drop
threshold, OR the number of non-keyframes added since the last keyframe
equals window size minus one). -/
def IsKeyframe (dist : ℚ × ℚ → ℚ × ℚ → ℚ) (tracker : List TrackEntry)
    (params : CameraParams) (curKfTime : ℚ) (addedSinceKf : ℤ)
    (imgTime : ℚ) (triangulatedIds untriangulatedIds : List ℕ) : Bool :=
  if imgTime - curKfTime ≥ params.keyframe_min_time_in_seconds then
    let allIds := triangulatedIds ++ untriangulatedIds
    let avgParallax := ComputeAvgParallax dist tracker curKfTime imgTime allIds
    if avgParallax > params.keyframe_parallax ∨
        (triangulatedIds.length : ℤ) < params.keyframe_tracks_drop then
      true
    else if addedSinceKf = params.window_size - 1 then true
    else false
  else false

end VisualInertialOdom

/-- C2: `IsKeyframe` returns true if and only if (stamp minus the last
keyframe stamp) is at least `keyframe_min_time_in_seconds` AND (the mean
pixel parallax between the last keyframe and the stamp over the union of
triangulated and untriangulated ids exceeds `keyframe_parallax`, OR the
triangulated count falls below `keyframe_tracks_drop`, OR the number of
non-keyframes added since the last keyframe equals the window size minus
one). -/
theorem claim_C2 (dist : ℚ × ℚ → ℚ × ℚ → ℚ) (tracker : List TrackEntry)
    (params : CameraParams) (curKfTime : ℚ) (addedSinceKf : ℤ)
    (imgTime : ℚ) (triangulatedIds untriangulatedIds : List ℕ) :
    VisualInertialOdom.IsKeyframe dist tracker params curKfTime
      addedSinceKf imgTime triangulatedIds untriangulatedIds = true ↔
    (params.keyframe_min_time_in_seconds ≤ imgTime - curKfTime ∧
      (params.keyframe_parallax <
        VisualInertialOdom.ComputeAvgParallax dist tracker curKfTime
          imgTime (triangulatedIds ++ untriangulatedIds) ∨
       (triangulatedIds.length : ℤ) < params.keyframe_tracks_drop ∨
       addedSinceKf = params.window_size - 1)) := by
  unfold VisualInertialOdom.IsKeyframe
  split_ifs with h1 h2 <;> simp_all

/-! ## GlobalMap: submap assignment, loop closure, relocalization
(global_map.cpp) -/

namespace GlobalMap

/-- `GlobalMap::GetSubmapId` (lines 634-672).  `submaps` is the list of
the online submaps' initial anchor positions (`T_WORLD_SUBMAP_INIT`
translations), oldest first; `p` is the baselink position; the source's
`(a - b).norm() < submap_size` is embedded as the equivalent squared
comparison.  Returns the index of the submap the pose belongs to, or the
current number of submaps when a new submap must be created. -/
def GetSubmapId (submaps : List Vec3) (p : Vec3) (submapSize : ℚ) : ℕ :=
  if submaps.isEmpty then 0
  else if submaps.length = 1 then
    if Vec3.normSq (Vec3.sub p
        (submaps.getD (submaps.length - 1) Vec3.zero)) <
        submapSize * submapSize then 0
    else 1
  else if Vec3.normSq (Vec3.sub p
      (submaps.getD (submaps.length - 2) Vec3.zero)) <
      submapSize * submapSize then
    submaps.length - 2
  else if Vec3.normSq (Vec3.sub p
      (submaps.getD (submaps.length - 1) Vec3.zero)) <
      submapSize * submapSize then
    submaps.length - 1
  else submaps.length

/-- The submap-selection step of `GlobalMap::AddMeasurement` (lines
536-562): compute the submap id; when it equals the number of submaps,
create a new submap anchored at the measurement pose (its initial anchor
is `T_WORLD_BASELINK` itself) and append it; the measurement is then
added to the submap at the returned id. -/
def AddMeasurementSubmap (submaps : List Vec3) (p : Vec3)
    (submapSize : ℚ) : ℕ × List Vec3 :=
  if GetSubmapId submaps p submapSize = submaps.length then
    (GetSubmapId submaps p submapSize, submaps ++ [p])
  else (GetSubmapId submaps p submapSize, submaps)

/-- The current (most recent) submap's initial anchor is within
`submap_size` of `p`. -/
def curWithin (submaps : List Vec3) (p : Vec3) (submapSize : ℚ) : Prop :=
  submaps ≠ [] ∧
  Vec3.normSq (Vec3.sub p (submaps.getD (submaps.length - 1) Vec3.zero)) <
    submapSize * submapSize

/-- The previous submap exists and its initial anchor is within
`submap_size` of `p`. -/
def prevWithin (submaps : List Vec3) (p : Vec3) (submapSize : ℚ) : Prop :=
  2 ≤ submaps.length ∧
  Vec3.normSq (Vec3.sub p (submaps.getD (submaps.length - 2) Vec3.zero)) <
    submapSize * submapSize

instance (submaps : List Vec3) (p : Vec3) (s : ℚ) :
    Decidable (curWithin submaps p s) := by
  unfold curWithin; infer_instance

instance (submaps : List Vec3) (p : Vec3) (s : ℚ) :
    Decidable (prevWithin submaps p s) := by
  unfold prevWithin; infer_instance

end GlobalMap

theorem getD_concat_length (l : List Vec3) (x d : Vec3) :
    (l ++ [x]).getD l.length d = x := by
  induction l with
  | nil => rfl
  | cons a as ih => simp [ih]

/-- C4: the submap a measurement is assigned to has its initial anchor
within `submap_size` of the measurement's baselink position (a freshly
created submap is anchored at that position itself); when both the
previous and the current submap anchors are within `submap_size`, the
previous one is chosen; and when neither is, a new submap is created and
the returned id equals the previous number of submaps. -/
theorem claim_C4 (submaps : List Vec3) (p : Vec3) (s : ℚ) (hs : 0 < s) :
    Vec3.normSq (Vec3.sub p
      ((GlobalMap.AddMeasurementSubmap submaps p s).2.getD
        (GlobalMap.AddMeasurementSubmap submaps p s).1 Vec3.zero)) <
      s * s ∧
    (GlobalMap.prevWithin submaps p s → GlobalMap.curWithin submaps p s →
      (GlobalMap.AddMeasurementSubmap submaps p s).1 =
        submaps.length - 2) ∧
    (¬ GlobalMap.prevWithin submaps p s →
      ¬ GlobalMap.curWithin submaps p s →
      (GlobalMap.AddMeasurementSubmap submaps p s).1 = submaps.length) := by
  have hss : 0 < s * s := mul_pos hs hs
  rcases submaps with _ | ⟨a, rest⟩
  · refine ⟨?_, ?_, ?_⟩
    · simp [GlobalMap.AddMeasurementSubmap, GlobalMap.GetSubmapId,
        Vec3.normSq_sub_self, hss]
    · rintro ⟨h2, -⟩
      simp at h2
    · intro _ _
      simp [GlobalMap.AddMeasurementSubmap, GlobalMap.GetSubmapId]
  · rcases rest with _ | ⟨b, r⟩
    · by_cases hc : Vec3.normSq (Vec3.sub p a) < s * s
      · refine ⟨?_, ?_, ?_⟩
        · simp [GlobalMap.AddMeasurementSubmap, GlobalMap.GetSubmapId, hc]
        · rintro ⟨h2, -⟩ _
          simp at h2
        · intro _ hcur
          exact absurd ⟨List.cons_ne_nil a [], hc⟩ hcur
      · refine ⟨?_, ?_, ?_⟩
        · simp [GlobalMap.AddMeasurementSubmap, GlobalMap.GetSubmapId, hc,
            Vec3.normSq_sub_self, hss]
        · rintro ⟨h2, -⟩ _
          simp at h2
        · intro _ _
          simp [GlobalMap.AddMeasurementSubmap, GlobalMap.GetSubmapId, hc]
    · have hlen : (a :: b :: r).length = r.length + 2 := by simp
      have hempty : ¬ ((a :: b :: r).isEmpty = true) := by simp
      have hne1 : ¬ ((a :: b :: r).length = 1) := by omega
      have hprevD : GlobalMap.prevWithin (a :: b :: r) p s ↔
          Vec3.normSq (Vec3.sub p
            ((a :: b :: r).getD ((a :: b :: r).length - 2) Vec3.zero)) <
            s * s := by
        unfold GlobalMap.prevWithin
        constructor
        · rintro ⟨-, h⟩; exact h
        · intro h; exact ⟨by omega, h⟩
      have hcurD : GlobalMap.curWithin (a :: b :: r) p s ↔
          Vec3.normSq (Vec3.sub p
            ((a :: b :: r).getD ((a :: b :: r).length - 1) Vec3.zero)) <
            s * s := by
        unfold GlobalMap.curWithin
        constructor
        · rintro ⟨-, h⟩; exact h
        · intro h; exact ⟨List.cons_ne_nil a (b :: r), h⟩
      by_cases hp : Vec3.normSq (Vec3.sub p
          ((a :: b :: r).getD ((a :: b :: r).length - 2) Vec3.zero)) < s * s
      · have hid : GlobalMap.GetSubmapId (a :: b :: r) p s =
            (a :: b :: r).length - 2 := by
          unfold GlobalMap.GetSubmapId
          rw [if_neg hempty, if_neg hne1, if_pos hp]
        have hidne : ¬ ((a :: b :: r).length - 2 = (a :: b :: r).length) := by
          omega
        have hadd : GlobalMap.AddMeasurementSubmap (a :: b :: r) p s =
            ((a :: b :: r).length - 2, a :: b :: r) := by
          unfold GlobalMap.AddMeasurementSubmap
          rw [hid, if_neg hidne]
        refine ⟨?_, ?_, ?_⟩
        · rw [hadd]
          exact hp
        · intro _ _
          rw [hadd]
        · intro hnp _
          exact absurd (hprevD.mpr hp) hnp
      · by_cases hc : Vec3.normSq (Vec3.sub p
            ((a :: b :: r).getD ((a :: b :: r).length - 1) Vec3.zero)) < s * s
        · have hid : GlobalMap.GetSubmapId (a :: b :: r) p s =
              (a :: b :: r).length - 1 := by
            unfold GlobalMap.GetSubmapId
            rw [if_neg hempty, if_neg hne1, if_neg hp, if_pos hc]
          have hidne : ¬ ((a :: b :: r).length - 1 = (a :: b :: r).length) := by
            omega
          have hadd : GlobalMap.AddMeasurementSubmap (a :: b :: r) p s =
              ((a :: b :: r).length - 1, a :: b :: r) := by
            unfold GlobalMap.AddMeasurementSubmap
            rw [hid, if_neg hidne]
          refine ⟨?_, ?_, ?_⟩
          · rw [hadd]
            exact hc
          · intro hprev _
            exact absurd (hprevD.mp hprev) hp
          · intro _ hnc
            exact absurd (hcurD.mpr hc) hnc
        · have hid : GlobalMap.GetSubmapId (a :: b :: r) p s =
              (a :: b :: r).length := by
            unfold GlobalMap.GetSubmapId
            rw [if_neg hempty, if_neg hne1, if_neg hp, if_neg hc]
          have hadd : GlobalMap.AddMeasurementSubmap (a :: b :: r) p s =
              ((a :: b :: r).length, (a :: b :: r) ++ [p]) := by
            unfold GlobalMap.AddMeasurementSubmap
            rw [hid, if_pos rfl]
          refine ⟨?_, ?_, ?_⟩
          · rw [hadd]
            show Vec3.normSq (Vec3.sub p
              (((a :: b :: r) ++ [p]).getD ((a :: b :: r).length) Vec3.zero)) <
                s * s
            rw [getD_concat_length]
            rw [Vec3.normSq_sub_self]
            exact hss
          · intro hprev _
            exact absurd (hprevD.mp hprev) hp
          · intro _ _
            rw [hadd]

/-- C4 witness: with no submaps yet and unit submap size, the measurement
at the origin creates submap 0 anchored at the origin itself. -/
theorem claim_C4_witness :
    Vec3.normSq (Vec3.sub Vec3.zero
      ((GlobalMap.AddMeasurementSubmap [] Vec3.zero 1).2.getD
        (GlobalMap.AddMeasurementSubmap [] Vec3.zero 1).1 Vec3.zero)) <
      1 * 1 ∧
    (GlobalMap.prevWithin [] Vec3.zero 1 →
      GlobalMap.curWithin [] Vec3.zero 1 →
      (GlobalMap.AddMeasurementSubmap [] Vec3.zero 1).1 =
        ([] : List Vec3).length - 2) ∧
    (¬ GlobalMap.prevWithin [] Vec3.zero 1 →
      ¬ GlobalMap.curWithin [] Vec3.zero 1 →
      (GlobalMap.AddMeasurementSubmap [] Vec3.zero 1).1 =
        ([] : List Vec3).length) :=
  claim_C4 [] Vec3.zero 1 (by norm_num)

namespace GlobalMap

/-- The candidate filtering of `GlobalMap::RunLoopClosure` (lines
710-766): with a single submap no candidates are considered at all; the
first filter removes every match equal to `query_index` or
`query_index - 1`; if nothing survives, no refinement runs; otherwise
each surviving candidate is additionally skipped inside the refinement
loop when it equals `query_index + 1` or `query_index - 1`.  The result
is the list of matched indices for which the refinement
(`reloc_refinement_->GenerateTransaction`) is actually invoked, i.e. the
only indices a relative-pose constraint of the returned transaction can
link to the query submap. -/
def RunLoopClosureRefined (numSubmaps : ℕ) (matchedIndices : List ℤ)
    (queryIndex : ℤ) : List ℤ :=
  if numSubmaps = 1 then []
  else
    if (matchedIndices.filter
        (fun i => !(i == queryIndex || i == queryIndex - 1))).isEmpty then []
    else
      (matchedIndices.filter
        (fun i => !(i == queryIndex || i == queryIndex - 1))).filter
        (fun i => !(i == queryIndex + 1 || i == queryIndex - 1))

end GlobalMap

/-- C5: loop closure never refines (hence never constrains) a candidate
submap whose index differs from the query index by at most one:
candidates equal to q, q-1 and q+1 are all filtered out before the
refinement is invoked. -/
theorem claim_C5 (numSubmaps : ℕ) (matchedIndices : List ℤ)
    (queryIndex m : ℤ)
    (hm : m ∈ GlobalMap.RunLoopClosureRefined numSubmaps matchedIndices
      queryIndex) :
    ¬ (queryIndex - m).natAbs ≤ 1 := by
  unfold GlobalMap.RunLoopClosureRefined at hm
  split_ifs at hm
  · simp at hm
  · simp at hm
  · simp only [List.mem_filter, Bool.not_eq_true', beq_eq_false_iff_ne,
      ne_eq, Bool.or_eq_false_iff] at hm
    obtain ⟨⟨-, h1, h2⟩, h3, h4⟩ := hm
    omega

/-- C5 witness: with 3 submaps, the candidate list [0] for query index 2
survives the filters, and |2 - 0| > 1. -/
theorem claim_C5_witness :
    (0 : ℤ) ∈ GlobalMap.RunLoopClosureRefined 3 [0] 2 ∧
    ¬ ((2 : ℤ) - 0).natAbs ≤ 1 :=
  ⟨by decide, claim_C5 3 [0] 2 0 (by decide)⟩

/-- `GlobalMap`'s active-submap tag: `SubmapType` (NONE / OFFLINE /
ONLINE). -/
inductive SubmapType where
  | NONE
  | OFFLINE
  | ONLINE
deriving DecidableEq, Repr

/-- The active-submap bookkeeping of `GlobalMap`: `active_submap_id_`
and `active_submap_type_`. -/
structure ActiveSubmap where
  id : ℤ
  type : SubmapType
deriving DecidableEq, Repr

namespace GlobalMap

/-- The candidate loop of `GlobalMap::ProcessRelocRequest` for one
table (offline branch lines 819-877, online branch lines 893-941).
For each matched index in order: if it equals the active submap id AND
the active submap type equals this table's tag, return "no update"
(`some (false, st)`); otherwise, if the reloc refinement succeeds,
publish the submap and set the active submap — the SOURCE sets
`active_submap_type_ = SubmapType::OFFLINE` in BOTH branches (lines 871
and 935) — and return `some (true, ...)`; otherwise try the next
candidate.  `none` means the loop fell through. -/
def relocCandidateLoop (table : SubmapType) (st : ActiveSubmap)
    (refineOk : ℤ → Bool) : List ℤ → Option (Bool × ActiveSubmap)
  | [] => none
  | idx :: rest =>
      if st.id = idx ∧ st.type = table then some (false, st)
      else if refineOk idx then some (true, ⟨idx, SubmapType.OFFLINE⟩)
      else relocCandidateLoop table st refineOk rest

/-- `GlobalMap::ProcessRelocRequest` (lines 768-946), restricted to its
candidate/active-submap logic: search the offline candidates first, then
the online candidates; return the first verdict, or `(false, st)` when
everything fails.  The pointcloud loading and submap-message assembly
have no effect on the returned flag or the active-submap state. -/
def ProcessRelocRequest (st : ActiveSubmap) (offlineCands onlineCands :
    List ℤ) (refineOff refineOn : ℤ → Bool) : Bool × ActiveSubmap :=
  match relocCandidateLoop SubmapType.OFFLINE st refineOff offlineCands with
  | some r => r
  | none =>
      match relocCandidateLoop SubmapType.ONLINE st refineOn onlineCands with
      | some r => r
      | none => (false, st)

end GlobalMap

/-- C6: the claim fails for online-matched active submaps.  First
request: fresh state, online candidate search returns submap 7 and
refinement succeeds, so submap 7 becomes active — but the source stores
its type as OFFLINE (line 935), not ONLINE.  Second request: the online
candidate search again returns the currently active submap 7; the claim
says this returns "no update" (false), but the code's
`active_submap_type_ == SubmapType::ONLINE` check cannot fire (the type
on record is OFFLINE), so it refines and re-sends the submap, returning
true.  The offline branch, by contrast, behaves as claimed. -/
theorem claim_C6 :
    GlobalMap.ProcessRelocRequest ⟨-1, SubmapType.NONE⟩ [] [7]
      (fun _ => false) (fun _ => true) =
      (true, ⟨7, SubmapType.OFFLINE⟩) ∧
    GlobalMap.ProcessRelocRequest ⟨7, SubmapType.OFFLINE⟩ [] [7]
      (fun _ => false) (fun _ => true) =
      (true, ⟨7, SubmapType.OFFLINE⟩) ∧
    GlobalMap.ProcessRelocRequest ⟨7, SubmapType.OFFLINE⟩ [7] []
      (fun _ => true) (fun _ => true) =
      (false, ⟨7, SubmapType.OFFLINE⟩) := by
  refine ⟨?_, ?_, ?_⟩ <;> rfl

/-! ## Pose transactions (src/bs_constraints) -/

/-- A fuse variable added by a pose transaction: `Position3DStamped` or
`Orientation3DStamped`. -/
inductive FuseVariable where
  | position (stamp : ℚ) (p : Vec3)
  | orientation (stamp : ℚ) (q : Rot)
deriving DecidableEq, Repr

/-- A fuse constraint added by a pose transaction: a
`RelativePose3DStampedConstraint` or an
`AbsolutePose3DStampedConstraint` prior. -/
inductive FuseConstraint where
  | relativePose (meanP : Vec3) (meanQ : Rot)
  | absolutePosePrior (meanP : Vec3) (meanQ : Rot)
deriving DecidableEq, Repr

/-- `fuse_core::Transaction` (external estimator interface, spec section
3): the stamp, the added variables and constraints, the removal
tombstones and the involved stamps.  `empty()` is true iff all five
lists are empty. -/
structure FuseTransaction where
  stamp : ℚ
  addedVariables : List FuseVariable
  addedConstraints : List FuseConstraint
  removedVariables : List ℚ
  removedConstraints : List ℚ
  involvedStamps : List ℚ
deriving DecidableEq, Repr

/-- `fuse_core::Transaction::empty()`. -/
def FuseTransaction.emptyTx (tx : FuseTransaction) : Bool :=
  tx.addedVariables.isEmpty && tx.addedConstraints.isEmpty &&
  tx.removedVariables.isEmpty && tx.removedConstraints.isEmpty &&
  tx.involvedStamps.isEmpty

namespace Pose3DStampedTransaction

/-- The constructor of `Pose3DStampedTransaction`
(pose_3d_stamped_transaction.cpp lines 9-16) and of
`RelativePoseTransactionBase` (relative_pose_transaction_base.h lines
36-43): a fresh transaction carrying only the stamp. -/
def mk (transactionStamp : ℚ) : FuseTransaction :=
  ⟨transactionStamp, [], [], [], [], []⟩

/-- One mutation of the transaction through the public interface of
`Pose3DStampedTransaction` / `RelativePoseTransactionBase`: adding a
relative pose constraint, adding a pose prior, or adding the pose
variables of a stamp. -/
inductive Op where
  | addPoseConstraint (meanP : Vec3) (meanQ : Rot)
  | addPosePrior (meanP : Vec3) (meanQ : Rot)
  | addPoseVariables (p : Vec3) (q : Rot) (stamp : ℚ)
deriving DecidableEq, Repr

/-- `AddPoseConstraint` / `AddPosePrior` / `AddPoseVariables`
(pose_3d_stamped_transaction.cpp lines 24-88): each call appends one
constraint, or one involved stamp plus the position and orientation
variables. -/
def applyOp (tx : FuseTransaction) : Op → FuseTransaction
  | .addPoseConstraint mp mq =>
      { tx with addedConstraints :=
          tx.addedConstraints ++ [.relativePose mp mq] }
  | .addPosePrior mp mq =>
      { tx with addedConstraints :=
          tx.addedConstraints ++ [.absolutePosePrior mp mq] }
  | .addPoseVariables p q stamp =>
      { tx with
        involvedStamps := tx.involvedStamps ++ [stamp]
        addedVariables :=
          tx.addedVariables ++ [.position stamp p, .orientation stamp q] }

/-- `Pose3DStampedTransaction::GetTransaction`
(pose_3d_stamped_transaction.cpp lines 18-22) =
`RelativePoseTransactionBase::GetTransaction`
(relative_pose_transaction_base.h lines 45-48): `nullptr` when the
transaction is empty, the transaction otherwise. -/
def GetTransaction (tx : FuseTransaction) : Option FuseTransaction :=
  if tx.emptyTx then none else some tx

theorem applyOp_grows (tx : FuseTransaction) (op : Op) :
    tx.addedVariables.length + tx.addedConstraints.length + 1 ≤
      (applyOp tx op).addedVariables.length +
        (applyOp tx op).addedConstraints.length := by
  cases op <;> simp [applyOp] <;> omega

theorem foldl_applyOp_grows (ops : List Op) (tx : FuseTransaction) :
    tx.addedVariables.length + tx.addedConstraints.length + ops.length ≤
      (ops.foldl applyOp tx).addedVariables.length +
        (ops.foldl applyOp tx).addedConstraints.length := by
  induction ops generalizing tx with
  | nil => simp
  | cons op ops ih =>
      have h1 := applyOp_grows tx op
      have h2 := ih (applyOp tx op)
      simp only [List.foldl_cons, List.length_cons]
      omega

end Pose3DStampedTransaction

/-- C9: a pose transaction built through the
`Pose3DStampedTransaction` / `RelativePoseTransactionBase` interface
yields `GetTransaction = nullptr` exactly when no variable and no
constraint was added (the empty transaction is never handed to the
estimator and acts as a no-op); conversely `GetTransaction` returns the
built transaction itself whenever it is non-empty. -/
theorem claim_C9 (s : ℚ) (ops : List Pose3DStampedTransaction.Op) :
    (Pose3DStampedTransaction.GetTransaction
      (ops.foldl Pose3DStampedTransaction.applyOp
        (Pose3DStampedTransaction.mk s)) = none ↔ ops = []) ∧
    (∀ tx : FuseTransaction, tx.emptyTx = false →
      Pose3DStampedTransaction.GetTransaction tx = some tx) := by
  constructor
  · constructor
    · intro h
      by_contra hne
      have hlen : 1 ≤ ops.length := by
        cases ops with
        | nil => exact absurd rfl hne
        | cons _ _ => simp
      have hgrow := Pose3DStampedTransaction.foldl_applyOp_grows ops
        (Pose3DStampedTransaction.mk s)
      set tx := ops.foldl Pose3DStampedTransaction.applyOp
        (Pose3DStampedTransaction.mk s) with htx
      have hnonempty : 1 ≤ tx.addedVariables.length +
          tx.addedConstraints.length := by
        have hmk : (Pose3DStampedTransaction.mk s).addedVariables.length +
            (Pose3DStampedTransaction.mk s).addedConstraints.length = 0 := rfl
        omega
      have hemp : tx.emptyTx = false := by
        rcases hv : tx.addedVariables with _ | ⟨v, vs⟩
        · rcases hc : tx.addedConstraints with _ | ⟨c, cs⟩
          · rw [hv, hc] at hnonempty
            simp at hnonempty
          · simp [FuseTransaction.emptyTx, hv, hc]
        · simp [FuseTransaction.emptyTx, hv]
      unfold Pose3DStampedTransaction.GetTransaction at h
      rw [hemp] at h
      simp at h
    · rintro rfl
      rfl
  · intro tx htx
    unfold Pose3DStampedTransaction.GetTransaction
    rw [htx]
    rfl

/-- C9 witness: an op-free transaction stamped 0 yields null, and a
transaction holding one prior constraint is returned as-is. -/
theorem claim_C9_witness :
    (Pose3DStampedTransaction.GetTransaction
      (List.foldl Pose3DStampedTransaction.applyOp
        (Pose3DStampedTransaction.mk 0) []) = none ↔
      ([] : List Pose3DStampedTransaction.Op) = []) ∧
    Pose3DStampedTransaction.GetTransaction
      ⟨0, [], [.absolutePosePrior Vec3.zero Rot.one], [], [], []⟩ =
      some ⟨0, [], [.absolutePosePrior Vec3.zero Rot.one], [], [], []⟩ :=
  ⟨(claim_C9 0 []).1,
   (claim_C9 0 []).2 ⟨0, [], [.absolutePosePrior Vec3.zero Rot.one],
     [], [], []⟩ rfl⟩

end BeamSlam
